import Mathlib

/-!
Shallow embedding of `src/scraper.py` (IndiaMART lead scraper) and proofs of
the specification claims about it.

Python strings are modelled as lists of characters (`PyStr`).  Character
classification functions (`str.isdigit`, `str.lower`, `str.strip`) are
modelled over the ASCII range, which is the range the program manipulates.
-/

abbrev PyStr := List Char

/-- Whitespace for Python `str.strip()`: space, tab, newline, carriage
return, vertical tab and form feed. -/
def pyIsSpace (c : Char) : Bool :=
  c == ' ' || c == '\t' || c == '\n' || c == '\r' || c == '\x0B' || c == '\x0C'

/-- Python `s.lstrip()`. -/
def lstripPy (s : PyStr) : PyStr := s.dropWhile pyIsSpace

/-- Python `s.rstrip()`. -/
def rstripPy (s : PyStr) : PyStr := (s.reverse.dropWhile pyIsSpace).reverse

/-- Python `s.strip()`. -/
def pyStrip (s : PyStr) : PyStr := rstripPy (lstripPy s)

/-- Python `s.replace(c, d)` for single-character patterns. -/
def pyReplaceChar (c d : Char) (s : PyStr) : PyStr :=
  s.map (fun a => if a == c then d else a)

/-- Python `'  ' in s` (two consecutive spaces occur in `s`). -/
def hasDoubleSpace : PyStr → Bool
  | a :: b :: t => (a == ' ' && b == ' ') || hasDoubleSpace (b :: t)
  | _ => false

/-- Python `s.replace('  ', ' ')`: replace the non-overlapping occurrences of
two spaces, scanning from the left, by one space each. -/
def replaceDoubleSpace : PyStr → PyStr
  | [] => []
  | [a] => [a]
  | a :: b :: t =>
    if a = ' ' ∧ b = ' ' then ' ' :: replaceDoubleSpace t
    else a :: replaceDoubleSpace (b :: t)

/-- The `while '  ' in s: s = s.replace('  ', ' ')` loop of `sanitize_data`
(src/scraper.py lines 65-66), run with explicit fuel.  Each iteration of the
loop strictly shortens the string, so fuel `s.length` reaches the loop's
fixed point (proved below in `hasDoubleSpace_collapseSpaces`). -/
def collapseFuel : Nat → PyStr → PyStr
  | 0, s => s
  | fuel + 1, s =>
    if hasDoubleSpace s then collapseFuel fuel (replaceDoubleSpace s) else s

def collapseSpaces (s : PyStr) : PyStr := collapseFuel s.length s

/-- The per-value cleaning done by `sanitize_data` (src/scraper.py lines
62-66): `strip()`, then replace newlines and tabs by spaces, then collapse
runs of spaces. -/
def cleanText (s : PyStr) : PyStr :=
  collapseSpaces (pyReplaceChar '\t' ' ' (pyReplaceChar '\n' ' ' (pyStrip s)))

/-- Python `s.lower()` (ASCII case mapping). -/
def pyLower (s : PyStr) : PyStr := s.map Char.toLower

/-- Python `s.startswith(needle)` leading-segment test. -/
def pyStartsWith : PyStr → PyStr → Bool
  | [], _ => true
  | _ :: _, [] => false
  | a :: t1, b :: t2 => a == b && pyStartsWith t1 t2

/-- Python `needle in hay` substring test. -/
def pyIn (needle : PyStr) : PyStr → Bool
  | [] => pyStartsWith needle []
  | a :: t => pyStartsWith needle (a :: t) || pyIn needle t

/-- Left-to-right non-overlapping occurrence scan for `str.count`, for a
non-empty needle.  After a match the scan resumes past the matched text;
`skip` counts characters still to be skipped from the previous match. -/
def pyCountAux (needle : PyStr) (skip : Nat) : PyStr → Nat
  | [] => 0
  | a :: t =>
    match skip with
    | k + 1 => pyCountAux needle k t
    | 0 =>
      if pyStartsWith needle (a :: t) then
        1 + pyCountAux needle (needle.length - 1) t
      else pyCountAux needle 0 t

/-- Python `hay.count(needle)`: non-overlapping occurrences scanned from the
left; an empty needle is counted `len(hay) + 1` times, as in CPython. -/
def pyCount (needle hay : PyStr) : Nat :=
  if needle = [] then hay.length + 1 else pyCountAux needle 0 hay

/-- `validate_phone` (src/scraper.py lines 69-78).  `str.isdigit` is modelled
by `Char.isDigit` over the ASCII digits the scraper handles. -/
def validate_phone (phone : PyStr) : PyStr :=
  if phone = [] then []
  else
    let digits := phone.filter Char.isDigit
    if digits.length = 10 then digits
    else if (digits.length = 11 ∨ digits.length = 12) ∧
        (pyStartsWith [ '9', '1'] digits || pyStartsWith [ '0'] digits) then
      digits.drop (digits.length - 10)
    else phone

/-- Everything after the first occurrence of `c` (empty if `c` is absent). -/
def afterFirst (c : Char) : PyStr → PyStr
  | [] => []
  | a :: t => if a = c then t else afterFirst c t

/-- Python `s.split(c)[1]` for `c ∈ s`: the segment strictly between the
first occurrence of `c` and the following occurrence of `c` (or the end). -/
def splitSeg (c : Char) (s : PyStr) : PyStr :=
  (afterFirst c s).takeWhile (fun b => !(b == c))

/-- `validate_email` (src/scraper.py lines 80-87). -/
def validate_email (email : PyStr) : PyStr :=
  if email = [] then []
  else if email.contains '@' && (splitSeg '@' email).contains '.' then
    pyLower (pyStrip email)
  else []

/-- Exceptions of the model: Python `AttributeError`, and operation failures
distinguished by a tag. -/
inductive PyExn where
  | attributeError
  | opError (tag : Nat)
deriving DecidableEq

/-- Models evaluating the f-string of the `logging.warning` call inside the
`retry` wrapper's `except` block (src/scraper.py line 50).  The f-string
reads `func._name_`; a plain Python function object defines `__name__` but
not `_name_`, so this attribute lookup raises `AttributeError`. -/
def logRetryWarning : Except PyExn Unit := Except.error PyExn.attributeError

/-- The `while attempts < max_attempts` loop of the `retry` wrapper
(src/scraper.py lines 44-54).  `remaining = max_attempts - attempts` and
`calls` counts invocations of the wrapped operation so far; `op calls` is
the outcome of the next invocation.  Returns the wrapper's outcome
(`Except.ok none` models Python's implicit `return None` when the loop is
never entered) together with the total number of invocations made.
`time.sleep(delay)` has no observable effect in the model. -/
def retryLoop (op : Nat → Except PyExn α) : Nat → Nat → Except PyExn (Option α) × Nat
  | 0, calls => (Except.ok none, calls)
  | remaining + 1, calls =>
    match op calls with
    | Except.ok a => (Except.ok (some a), calls + 1)
    | Except.error e =>
      match logRetryWarning with
      | Except.error e2 => (Except.error e2, calls + 1)
      | Except.ok _ =>
        if remaining = 0 then (Except.error e, calls + 1)
        else retryLoop op remaining (calls + 1)

/-- The `retry(max_attempts, delay)` wrapper applied to an operation
(src/scraper.py lines 40-56). -/
def retry (maxAttempts _delay : Nat) (op : Nat → Except PyExn α) :
    Except PyExn (Option α) × Nat :=
  retryLoop op maxAttempts 0

/-- An operation that fails on every invocation. -/
def alwaysFailOp : Nat → Except PyExn Nat := fun i => Except.error (PyExn.opError i)

/-- An operation that fails on its 1st invocation and succeeds on the 2nd. -/
def succeedsSecondOp : Nat → Except PyExn Nat :=
  fun i => if i = 0 then Except.error (PyExn.opError 0) else Except.ok 42

/-- Browser window state: the open window handles (in creation order) and
the focused handle. -/
structure WinState where
  handles : List String
  focused : String
deriving DecidableEq

/-- A lead record: the dictionary built by `_extract_seller_info_from_listing`
(src/scraper.py lines 370-380), with its fixed keys as fields. -/
structure SellerInfo where
  companyName : PyStr
  companyProfileURL : PyStr
  productTitle : PyStr
  productCatalogURL : PyStr
  price : PyStr
  address : PyStr
  phoneNumber : PyStr
  email : PyStr
  relevancyScore : Nat
deriving DecidableEq

/-- The guard of `_extract_detailed_info_from_profile` (src/scraper.py line
448): enrichment runs only if phone, email or catalog URL is still missing
and a profile URL exists (empty strings are falsy in Python). -/
def enrichNeeded (info : SellerInfo) : Prop :=
  (info.phoneNumber = [] ∨ info.email = [] ∨ info.productCatalogURL = []) ∧
    info.companyProfileURL ≠ []

instance (info : SellerInfo) : Decidable (enrichNeeded info) := by
  unfold enrichNeeded; infer_instance

/-- Window-handle effect of `_extract_detailed_info_from_profile`
(src/scraper.py lines 439-627).

The in-page extraction work (lines 471-592) uses only `find_element`,
`click` and waits, none of which alter the window set; it is abstracted as
`body`, which may update the record or raise.  `openOk` tells whether the
`window.open` script and the subsequent wait succeed; on failure nothing is
opened and the raised error propagates to `finally`.  The `finally` block
(lines 606-625) closes the profile window if its handle was obtained, is
truthy and still open, then switches back to `searchResultsWindowHandle`
when that window still exists (a failing switch is caught and logged). -/
def extractDetailedInfoFromProfile (info : SellerInfo)
    (searchResultsWindowHandle newHandle : String) (openOk : Bool)
    (body : SellerInfo → Except PyExn SellerInfo) (s : WinState) :
    Except PyExn SellerInfo × WinState :=
  if enrichNeeded info then
    let newWindowHandle : Option String := if openOk then some newHandle else none
    let tryStep : Except PyExn SellerInfo × WinState :=
      if openOk then
        if newHandle ≠ "" then
          (body info, ⟨s.handles ++ [newHandle], newHandle⟩)
        else (Except.error (PyExn.opError 1), ⟨s.handles ++ [newHandle], s.focused⟩)
      else (Except.error (PyExn.opError 2), s)
    let s1 := tryStep.2
    let afterClose : WinState :=
      match newWindowHandle with
      | some h => if h ≠ "" ∧ h ∈ s1.handles then ⟨s1.handles.erase h, h⟩ else s1
      | none => s1
    let final : WinState :=
      if searchResultsWindowHandle ∈ afterClose.handles then
        ⟨afterClose.handles, searchResultsWindowHandle⟩
      else afterClose
    (tryStep.1, final)
  else (Except.ok info, s)

/-- Product-description term of `_calculate_relevancy_score` (src/scraper.py
lines 640-647).  For an integer ratio `r` with `0 ≤ r ≤ 100`, Python's
`int(r * 0.6)` equals `r * 6 / 10` in natural-number arithmetic (the IEEE
double rounding never crosses an integer boundary on this range). -/
def descTerm (ratio : PyStr → PyStr → Nat) (info : SellerInfo) (keyword : PyStr) : Nat :=
  let keywordLower := pyLower keyword
  let productDescLower := pyLower info.productTitle
  if productDescLower ≠ [] then
    if pyIn keywordLower productDescLower then
      60 + min 10 (pyCount keywordLower productDescLower * 2)
    else ratio keywordLower productDescLower * 6 / 10
  else 0

/-- Company-name term of `_calculate_relevancy_score` (src/scraper.py lines
649-655); `int(r * 0.3) = r * 3 / 10` on `0 ≤ r ≤ 100` as above. -/
def nameTerm (ratio : PyStr → PyStr → Nat) (info : SellerInfo) (keyword : PyStr) : Nat :=
  let keywordLower := pyLower keyword
  let companyNameLower := pyLower info.companyName
  if companyNameLower ≠ [] then
    if pyIn keywordLower companyNameLower then 30
    else ratio keywordLower companyNameLower * 3 / 10
  else 0

/-- Flat bonuses of `_calculate_relevancy_score` (src/scraper.py lines
657-664). -/
def bonusTerm (info : SellerInfo) : Nat :=
  (if info.phoneNumber ≠ [] then 3 else 0) + (if info.email ≠ [] then 2 else 0) +
    (if info.address ≠ [] then 5 else 0) + (if info.productCatalogURL ≠ [] then 5 else 0)

/-- `_calculate_relevancy_score` (src/scraper.py lines 630-666), with the
external fuzzy primitive `fuzz.partial_ratio` passed in as `ratio`. -/
def calculateRelevancyScore (ratio : PyStr → PyStr → Nat) (info : SellerInfo)
    (keyword : PyStr) : Nat :=
  min 100 (descTerm ratio info keyword + nameTerm ratio info keyword + bonusTerm info)

/-- A text field as the extractors produce it: the field keeps its default
`""` when the element is absent, and is set to `element.text.strip()` when
found (src/scraper.py lines 386, 401, 477, 499). -/
def textStripOpt : Option PyStr → PyStr
  | some raw => pyStrip raw
  | none => []

/-- Backfill discipline of the profile enricher: a field is only written if
still empty (src/scraper.py lines 472, 494). -/
def fillIfEmpty (current fallback : PyStr) : PyStr :=
  if current = [] then fallback else current

/-- The company-name and product-title fields of a record as produced by the
scraping pipeline: listing-card extraction possibly backfilled from the
profile page, both via `element.text.strip()`.  The remaining fields do not
participate in the retention guard. -/
def mkScrapedInfo (rawTitleCard rawCompanyCard rawTitleProfile rawCompanyProfile : Option PyStr)
    (profileURL catalogURL price address phone email : PyStr) (score : Nat) : SellerInfo :=
  ⟨fillIfEmpty (textStripOpt rawCompanyCard) (textStripOpt rawCompanyProfile),
    profileURL,
    fillIfEmpty (textStripOpt rawTitleCard) (textStripOpt rawTitleProfile),
    catalogURL, price, address, phone, email, score⟩

/-- `sanitize_data` applied to a lead record (src/scraper.py lines 58-67):
every string value is cleaned; the integer score is left untouched. -/
def sanitizeSellerInfo (info : SellerInfo) : SellerInfo :=
  ⟨cleanText info.companyName, cleanText info.companyProfileURL,
    cleanText info.productTitle, cleanText info.productCatalogURL,
    cleanText info.price, cleanText info.address,
    cleanText info.phoneNumber, cleanText info.email, info.relevancyScore⟩

/-- The retention step of `scrape_search_results` (src/scraper.py lines
751-754): append `sanitize_data(seller_info)` to the lead store only when
company name or product title is truthy. -/
def retainStep (info : SellerInfo) : Option SellerInfo :=
  if info.companyName ≠ [] ∨ info.productTitle ≠ [] then
    some (sanitizeSellerInfo info)
  else none

/-- A Python value stored in a lead dictionary: the scraper stores strings
and the integer relevancy score. -/
inductive PyVal where
  | str (s : PyStr)
  | int (n : Nat)
deriving DecidableEq

/-- A lead as a Python dictionary (association list with unique keys). -/
abbrev LeadDict := List (String × PyVal)

/-- Python `d[k]` / `k in d` lookup. -/
def dictGet : LeadDict → String → Option PyVal
  | [], _ => none
  | (k, v) :: t, key => if k = key then some v else dictGet t key

def scoreKey : String := "Relevancy Score (%)"

/-- The sort key of `export_to_csv` (src/scraper.py line 812):
`x.get("Relevancy Score (%)", 0)`. -/
def leadScore (l : LeadDict) : Nat :=
  match dictGet l scoreKey with
  | some (PyVal.int n) => n
  | _ => 0

/-- Whether the score entry of a lead is an integer (always the case for
records built by the scraper, which sets the score at line 749). -/
def scoreIsInt (l : LeadDict) : Bool :=
  match dictGet l scoreKey with
  | some (PyVal.int _) => true
  | _ => false

/-- One insertion step of the stable descending sort.  A stable sort is
uniquely determined by the comparison, so this insertion formulation is
extensionally the Python `sorted(leads, key=..., reverse=True)` of
src/scraper.py line 812: an element goes before every later element whose
score is not larger, preserving input order on ties. -/
def insertByScoreDesc (x : LeadDict) : List LeadDict → List LeadDict
  | [] => [x]
  | y :: t => if leadScore y ≤ leadScore x then x :: y :: t else y :: insertByScoreDesc x t

/-- Stable sort by relevancy score, descending (src/scraper.py line 812). -/
def sortByScoreDesc : List LeadDict → List LeadDict
  | [] => []
  | x :: t => insertByScoreDesc x (sortByScoreDesc t)

/-- The fixed column order of `export_to_csv` (src/scraper.py lines 799-809). -/
def csvFields : List String :=
  [ "Company Name", "Product Title/Description", "Price", "Address",
    "Phone Number", "Email", "Product Catalog URL", "Company Profile URL",
    "Relevancy Score (%)"]

/-- Serialization of one cell: a missing key becomes the empty string (both
`df.reindex(columns=fields, fill_value="")` for columns no lead has, and the
default `na_rep=''` of `to_csv` for per-row NaN holes, write `""`). -/
def renderCell : Option PyVal → String
  | none => ""
  | some (PyVal.str s) => String.mk s
  | some (PyVal.int n) => toString n

/-- One CSV data row in the fixed column order. -/
def leadRow (l : LeadDict) : List String := csvFields.map (fun f => renderCell (dictGet l f))

/-- `export_to_csv` (src/scraper.py lines 786-824) as the data rows it
writes: `none` models the early `return False` on an empty lead store. -/
def export_to_csv (leads : List LeadDict) : Option (List (List String)) :=
  if leads = [] then none
  else some ((sortByScoreDesc leads).map leadRow)

/-- `sanitize_data` (src/scraper.py lines 58-67) on a lead dictionary:
string values are cleaned in place, non-string values are untouched. -/
def sanitize_data (d : LeadDict) : LeadDict :=
  d.map (fun kv =>
    match kv with
    | (k, PyVal.str s) => (k, PyVal.str (cleanText s))
    | (k, PyVal.int n) => (k, PyVal.int n))

/-- A fuzzy-ratio instantiation used for concrete evaluations on inputs
whose control path never consults the fuzzy primitive. -/
def ratioZero : PyStr → PyStr → Nat := fun _ _ => 0

/-- The record of the spec's end-to-end scenario (spec §8): company
"Acme Sports", description "Leather Cricket Ball, size 5", phone and email
set, empty address and catalog reference. -/
def acmeLead : SellerInfo :=
  ⟨("Acme Sports").toList, [], ("Leather Cricket Ball, size 5").toList, [],
    ("Not Listed").toList, [], ("9876543210").toList, ("sales@acme.com").toList, 0⟩

/-- A record whose description equals the keyword (one occurrence) and whose
other scoring inputs are all empty. -/
def oneHitLead : SellerInfo :=
  ⟨[], [], ("cricket ball").toList, [], [], [], [], [], 0⟩

/-- The all-empty record. -/
def emptySellerInfo : SellerInfo := ⟨[], [], [], [], [], [], [], [], 0⟩

def demoLeadLow : LeadDict :=
  [(("Company Name"), PyVal.str (("A Traders").toList)),
    (("Relevancy Score (%)"), PyVal.int 70)]

def demoLeadHigh : LeadDict :=
  [(("Company Name"), PyVal.str (("B Corp").toList)),
    (("Price"), PyVal.str (("100").toList)),
    (("Relevancy Score (%)"), PyVal.int 95)]

def demoLeads : List LeadDict := [demoLeadLow, demoLeadHigh]

/-- Induction principle matching the two-character recursion of
`hasDoubleSpace` and `replaceDoubleSpace`. -/
theorem twoStepInduction {P : PyStr → Prop} (h0 : P []) (h1 : ∀ a, P [a])
    (h2 : ∀ a b t, P t → P (b :: t) → P (a :: b :: t)) : ∀ s, P s
  | [] => h0
  | [a] => h1 a
  | a :: b :: t => h2 a b t (twoStepInduction h0 h1 h2 t) (twoStepInduction h0 h1 h2 (b :: t))

theorem length_replaceDoubleSpace_le : ∀ s : PyStr, (replaceDoubleSpace s).length ≤ s.length := by
  refine twoStepInduction (by simp [replaceDoubleSpace]) (by simp [replaceDoubleSpace]) ?_
  intro a b t iht ihbt
  simp only [replaceDoubleSpace]
  simp only [List.length_cons] at iht ihbt
  split <;> simp only [List.length_cons] <;> omega

theorem length_replaceDoubleSpace_lt :
    ∀ s : PyStr, hasDoubleSpace s = true → (replaceDoubleSpace s).length < s.length := by
  refine twoStepInduction (by simp [hasDoubleSpace]) (by simp [hasDoubleSpace]) ?_
  intro a b t _ ihbt hds
  simp only [replaceDoubleSpace]

  split
  · have := length_replaceDoubleSpace_le t
    simp only [List.length_cons]; omega

  · rename_i hcond
    have hbt : hasDoubleSpace (b :: t) = true := by
      simp only [hasDoubleSpace, Bool.or_eq_true, Bool.and_eq_true, beq_iff_eq] at hds
      rcases hds with ⟨h1, h2⟩ | h
      · exact absurd ⟨h1, h2⟩ hcond
      · exact h
    have := ihbt hbt
    simp only [List.length_cons] at this ⊢; omega

theorem head?_replaceDoubleSpace : ∀ s : PyStr, (replaceDoubleSpace s).head? = s.head? := by
  refine twoStepInduction rfl (fun a => rfl) ?_
  intro a b t _ _
  simp only [replaceDoubleSpace]
  split
  · rename_i h; simp [h.1]
  · simp

theorem replaceDoubleSpace_ne_nil : ∀ {s : PyStr}, s ≠ [] → replaceDoubleSpace s ≠ [] := by
  intro s hs
  cases s with
  | nil => exact absurd rfl hs
  | cons a t =>
    intro hcontra
    have := head?_replaceDoubleSpace (a :: t)
    rw [hcontra] at this
    simp at this

theorem getLast?_cons_of_ne_nil {x : Char} {l : PyStr} (h : l ≠ []) :
    (x :: l).getLast? = l.getLast? := by
  cases l with
  | nil => exact absurd rfl h
  | cons b t => exact List.getLast?_cons_cons

theorem getLast?_replaceDoubleSpace : ∀ s : PyStr, (replaceDoubleSpace s).getLast? = s.getLast? := by
  refine twoStepInduction rfl (fun a => rfl) ?_
  intro a b t iht ihbt
  simp only [replaceDoubleSpace]
  split
  · rename_i h
    cases ht : t with
    | nil => simp [h.1, h.2, replaceDoubleSpace]
    | cons c u =>
      have hne : t ≠ [] := by simp [ht]
      rw [← ht, getLast?_cons_of_ne_nil (replaceDoubleSpace_ne_nil hne), iht,
        List.getLast?_cons_cons, getLast?_cons_of_ne_nil hne]

  · rw [getLast?_cons_of_ne_nil (replaceDoubleSpace_ne_nil (List.cons_ne_nil b t)), ihbt,
      List.getLast?_cons_cons]

theorem replaceDoubleSpace_sublist : ∀ s : PyStr, (replaceDoubleSpace s).Sublist s := by
  refine twoStepInduction (by simp [replaceDoubleSpace]) (by simp [replaceDoubleSpace]) ?_
  intro a b t iht ihbt
  simp only [replaceDoubleSpace]
  split
  · rename_i h
    rw [h.1]
    exact (iht.cons b).cons₂ ' '
  · exact ihbt.cons₂ a

theorem hasDoubleSpace_collapseFuel :
    ∀ (fuel : Nat) (s : PyStr), s.length ≤ fuel → hasDoubleSpace (collapseFuel fuel s) = false := by
  intro fuel
  induction fuel with
  | zero =>
    intro s h
    have : s = [] := List.eq_nil_of_length_eq_zero (Nat.le_zero.mp h)
    subst this; rfl
  | succ n ih =>
    intro s h
    by_cases hds : hasDoubleSpace s = true
    · have hlt := length_replaceDoubleSpace_lt s hds
      simp only [collapseFuel, hds, if_true]
      exact ih _ (by omega)
    · simp only [collapseFuel, Bool.not_eq_true] at hds ⊢
      rw [if_neg (by simp [hds])]
      exact hds

theorem head?_collapseFuel : ∀ (fuel : Nat) (s : PyStr), (collapseFuel fuel s).head? = s.head? := by
  intro fuel
  induction fuel with
  | zero => intro s; rfl
  | succ n ih =>
    intro s
    simp only [collapseFuel]
    split
    · rw [ih, head?_replaceDoubleSpace]
    · rfl

theorem getLast?_collapseFuel :
    ∀ (fuel : Nat) (s : PyStr), (collapseFuel fuel s).getLast? = s.getLast? := by
  intro fuel
  induction fuel with
  | zero => intro s; rfl
  | succ n ih =>
    intro s
    simp only [collapseFuel]
    split
    · rw [ih, getLast?_replaceDoubleSpace]
    · rfl

theorem collapseFuel_sublist : ∀ (fuel : Nat) (s : PyStr), (collapseFuel fuel s).Sublist s := by
  intro fuel
  induction fuel with
  | zero => intro s; exact List.Sublist.refl s
  | succ n ih =>
    intro s
    simp only [collapseFuel]
    split
    · exact (ih _).trans (replaceDoubleSpace_sublist s)
    · exact List.Sublist.refl s

theorem collapseFuel_of_no_double :
    ∀ (fuel : Nat) (s : PyStr), hasDoubleSpace s = false → collapseFuel fuel s = s := by
  intro fuel s h
  cases fuel with
  | zero => rfl
  | succ n => simp [collapseFuel, h]

theorem hasDoubleSpace_collapseSpaces (s : PyStr) : hasDoubleSpace (collapseSpaces s) = false :=
  hasDoubleSpace_collapseFuel s.length s (Nat.le_refl _)

theorem head?_collapseSpaces (s : PyStr) : (collapseSpaces s).head? = s.head? :=
  head?_collapseFuel s.length s

theorem getLast?_collapseSpaces (s : PyStr) : (collapseSpaces s).getLast? = s.getLast? :=
  getLast?_collapseFuel s.length s

theorem collapseSpaces_sublist (s : PyStr) : (collapseSpaces s).Sublist s :=
  collapseFuel_sublist s.length s

theorem collapseSpaces_of_no_double {s : PyStr} (h : hasDoubleSpace s = false) :
    collapseSpaces s = s :=
  collapseFuel_of_no_double s.length s h

theorem head?_append_left {l1 l2 : PyStr} (h : l1 ≠ []) : (l1 ++ l2).head? = l1.head? := by
  cases l1 with
  | nil => exact absurd rfl h
  | cons a t => rfl

theorem head?_dropWhile_not {p : Char → Bool} :
    ∀ {s : PyStr} {c : Char}, (s.dropWhile p).head? = some c → p c = false := by
  intro s
  induction s with
  | nil => intro c h; simp [List.dropWhile] at h
  | cons a t ih =>
    intro c h
    rw [List.dropWhile_cons] at h
    by_cases hp : p a = true
    · rw [if_pos hp] at h; exact ih h
    · rw [if_neg hp] at h
      simp only [List.head?_cons, Option.some.injEq] at h
      rw [← h]
      exact Bool.eq_false_iff.mpr hp

theorem head?_pyStrip : ∀ {s : PyStr} {c : Char},
    (pyStrip s).head? = some c → pyIsSpace c = false := by
  intro s c h
  have hsplit := List.takeWhile_append_dropWhile pyIsSpace (lstripPy s).reverse
  have hyform : lstripPy s =
      ((lstripPy s).reverse.dropWhile pyIsSpace).reverse ++
        ((lstripPy s).reverse.takeWhile pyIsSpace).reverse := by
    have h2 := congrArg List.reverse hsplit
    rw [List.reverse_append] at h2
    simpa using h2.symm
  have hvne : ((lstripPy s).reverse.dropWhile pyIsSpace).reverse ≠ [] := by
    intro hv
    unfold pyStrip rstripPy at h
    rw [hv] at h
    simp at h
  have hhead : (lstripPy s).head? = some c := by
    rw [hyform, head?_append_left hvne]
    unfold pyStrip rstripPy at h
    exact h
  unfold lstripPy at hhead
  exact head?_dropWhile_not hhead

theorem getLast?_pyStrip : ∀ {s : PyStr} {c : Char},
    (pyStrip s).getLast? = some c → pyIsSpace c = false := by
  intro s c h
  unfold pyStrip rstripPy at h
  rw [List.getLast?_reverse] at h
  exact head?_dropWhile_not h

theorem pyStrip_eq_self_of_ends {s : PyStr}
    (hh : ∀ c, s.head? = some c → pyIsSpace c = false)
    (hl : ∀ c, s.getLast? = some c → pyIsSpace c = false) : pyStrip s = s := by
  have h1 : lstripPy s = s := by
    cases hs : s with
    | nil => rfl
    | cons a t =>
      have ha := hh a (by rw [hs]; rfl)
      unfold lstripPy
      rw [List.dropWhile_cons, if_neg (by simp [ha])]
  unfold pyStrip
  rw [h1]
  unfold rstripPy
  cases hr : s.reverse with
  | nil =>
    have hnil : s = [] := List.reverse_eq_nil_iff.mp hr
    subst hnil; rfl
  | cons b r =>
    have hb : s.getLast? = some b := by rw [← List.head?_reverse, hr]; rfl
    have := hl b hb
    rw [List.dropWhile_cons, if_neg (by simp [this]), ← hr, List.reverse_reverse]

theorem pyStrip_idem (s : PyStr) : pyStrip (pyStrip s) = pyStrip s :=
  pyStrip_eq_self_of_ends (fun _ h => head?_pyStrip h) (fun _ h => getLast?_pyStrip h)

theorem head?_not_space_of_pyStrip_fixed {s : PyStr} {c : Char} (hfix : pyStrip s = s)
    (h : s.head? = some c) : pyIsSpace c = false :=
  head?_pyStrip (by rw [hfix]; exact h)

theorem pyReplaceChar_eq_self {c : Char} {s : PyStr} (d : Char) (h : c ∉ s) :
    pyReplaceChar c d s = s := by
  unfold pyReplaceChar
  induction s with
  | nil => rfl
  | cons a t ih =>
    simp only [List.mem_cons, not_or] at h
    simp only [List.map_cons]
    rw [if_neg (by simp; exact fun he => h.1 he.symm), ih h.2]

theorem mem_pyReplaceChar {c d x : Char} {s : PyStr} (h : x ∈ pyReplaceChar c d s) :
    x = d ∨ (x ∈ s ∧ x ≠ c) := by
  unfold pyReplaceChar at h
  rcases List.mem_map.mp h with ⟨y, hy, hxy⟩
  by_cases hyc : y == c
  · left; rw [← hxy, if_pos hyc]
  · right
    rw [← hxy, if_neg hyc]
    exact ⟨hy, by simpa using hyc⟩

theorem head?_cleanText {s : PyStr} {c : Char} (h : (cleanText s).head? = some c) :
    pyIsSpace c = false := by
  unfold cleanText at h
  rw [head?_collapseSpaces] at h
  unfold pyReplaceChar at h
  rw [List.head?_map, List.head?_map] at h
  cases hh : (pyStrip s).head? with
  | none => rw [hh] at h; simp at h
  | some c0 =>
    rw [hh] at h
    have hc0 := head?_pyStrip hh
    have h1 : ¬(c0 == '\n') = true := by
      simp only [beq_iff_eq]
      intro he; rw [he] at hc0; exact absurd hc0 (by decide)
    have h2 : ¬(c0 == '\t') = true := by
      simp only [beq_iff_eq]
      intro he; rw [he] at hc0; exact absurd hc0 (by decide)
    simp only [Option.map_some', if_neg h1, if_neg h2, Option.some.injEq] at h
    rw [← h]
    exact hc0

theorem getLast?_cleanText {s : PyStr} {c : Char} (h : (cleanText s).getLast? = some c) :
    pyIsSpace c = false := by
  unfold cleanText at h
  rw [getLast?_collapseSpaces] at h
  unfold pyReplaceChar at h
  rw [List.getLast?_map, List.getLast?_map] at h
  cases hh : (pyStrip s).getLast? with
  | none => rw [hh] at h; simp at h
  | some c0 =>
    rw [hh] at h
    have hc0 := getLast?_pyStrip hh
    have h1 : ¬(c0 == '\n') = true := by
      simp only [beq_iff_eq]
      intro he; rw [he] at hc0; exact absurd hc0 (by decide)
    have h2 : ¬(c0 == '\t') = true := by
      simp only [beq_iff_eq]
      intro he; rw [he] at hc0; exact absurd hc0 (by decide)
    simp only [Option.map_some', if_neg h1, if_neg h2, Option.some.injEq] at h
    rw [← h]
    exact hc0

theorem newline_not_mem_cleanText (s : PyStr) : '\n' ∉ cleanText s := by
  intro h
  unfold cleanText at h
  have h2 := (collapseSpaces_sublist _).subset h
  rcases mem_pyReplaceChar h2 with h3 | ⟨h3, _⟩
  · exact absurd h3 (by decide)
  · rcases mem_pyReplaceChar h3 with h4 | ⟨_, h4⟩
    · exact absurd h4 (by decide)
    · exact h4 rfl

theorem tab_not_mem_cleanText (s : PyStr) : '\t' ∉ cleanText s := by
  intro h
  unfold cleanText at h
  have h2 := (collapseSpaces_sublist _).subset h
  rcases mem_pyReplaceChar h2 with h3 | ⟨_, h3⟩
  · exact absurd h3 (by decide)
  · exact h3 rfl

theorem hasDoubleSpace_cleanText (s : PyStr) : hasDoubleSpace (cleanText s) = false :=
  hasDoubleSpace_collapseSpaces _

theorem pyStrip_cleanText (s : PyStr) : pyStrip (cleanText s) = cleanText s :=
  pyStrip_eq_self_of_ends (fun _ h => head?_cleanText h) (fun _ h => getLast?_cleanText h)

theorem cleanText_idem (s : PyStr) : cleanText (cleanText s) = cleanText s := by
  have hdef : cleanText (cleanText s) =
      collapseSpaces (pyReplaceChar '\t' ' ' (pyReplaceChar '\n' ' ' (pyStrip (cleanText s)))) :=
    rfl
  rw [hdef, pyStrip_cleanText, pyReplaceChar_eq_self ' ' (newline_not_mem_cleanText s),
    pyReplaceChar_eq_self ' ' (tab_not_mem_cleanText s),
    collapseSpaces_of_no_double (hasDoubleSpace_cleanText s)]

theorem cleanText_ne_nil {s : PyStr} (hfix : pyStrip s = s) (hne : s ≠ []) :
    cleanText s ≠ [] := by
  cases hs : s with
  | nil => exact absurd hs hne
  | cons a t =>
    have hhead : s.head? = some a := by rw [hs]; rfl
    have ha := head?_not_space_of_pyStrip_fixed hfix hhead
    have h1 : ¬(a == '\n') = true := by
      simp only [beq_iff_eq]
      intro he; rw [he] at ha; exact absurd ha (by decide)
    have h2 : ¬(a == '\t') = true := by
      simp only [beq_iff_eq]
      intro he; rw [he] at ha; exact absurd ha (by decide)
    have hch : (cleanText s).head? = some a := by
      show (collapseSpaces _).head? = some a
      rw [head?_collapseSpaces]
      unfold pyReplaceChar
      rw [List.head?_map, List.head?_map, hfix, hhead]
      simp only [Option.map_some', if_neg h1, if_neg h2]
    intro hcontra
    rw [hs] at hch
    rw [hcontra] at hch
    simp at hch

theorem pyStrip_textStripOpt (o : Option PyStr) : pyStrip (textStripOpt o) = textStripOpt o := by
  cases o with
  | none => rfl
  | some raw => exact pyStrip_idem raw

theorem pyStrip_fillIfEmpty {a b : PyStr} (ha : pyStrip a = a) (hb : pyStrip b = b) :
    pyStrip (fillIfEmpty a b) = fillIfEmpty a b := by
  unfold fillIfEmpty
  split
  · exact hb
  · exact ha

theorem pyIn_nil_needle : ∀ hay : PyStr, pyIn [] hay = true := by
  intro hay
  cases hay with
  | nil => rfl
  | cons a t => rfl

theorem pyIn_of_pyCountAux_pos {needle : PyStr} :
    ∀ hay : PyStr, 0 < pyCountAux needle 0 hay → pyIn needle hay = true := by
  intro hay
  induction hay with
  | nil => intro h; simp [pyCountAux] at h
  | cons a t ih =>
    intro h
    by_cases hp : pyStartsWith needle (a :: t) = true
    · simp [pyIn, hp]
    · simp only [pyCountAux, if_neg hp] at h
      simp [pyIn, ih h]

theorem pyIn_of_pyCount_pos {needle hay : PyStr} (h : 0 < pyCount needle hay) :
    pyIn needle hay = true := by
  by_cases hn : needle = []
  · rw [hn]; exact pyIn_nil_needle hay
  · rw [pyCount, if_neg hn] at h
    exact pyIn_of_pyCountAux_pos hay h

theorem insertByScoreDesc_perm (x : LeadDict) :
    ∀ l : List LeadDict, List.Perm (insertByScoreDesc x l) (x :: l) := by
  intro l
  induction l with
  | nil => exact List.Perm.refl _
  | cons y t ih =>
    unfold insertByScoreDesc
    split
    · exact List.Perm.refl _
    · exact (ih.cons y).trans (List.Perm.swap x y t)

theorem sortByScoreDesc_perm : ∀ l : List LeadDict, List.Perm (sortByScoreDesc l) l := by
  intro l
  induction l with
  | nil => exact List.Perm.refl _
  | cons x t ih =>
    unfold sortByScoreDesc
    exact (insertByScoreDesc_perm x _).trans (ih.cons x)

theorem mem_insertByScoreDesc {x z : LeadDict} {l : List LeadDict}
    (h : z ∈ insertByScoreDesc x l) : z = x ∨ z ∈ l := by
  have := (insertByScoreDesc_perm x l).mem_iff.mp h
  simpa using this

theorem pairwise_insertByScoreDesc {x : LeadDict} :
    ∀ {l : List LeadDict}, List.Pairwise (fun a b => leadScore b ≤ leadScore a) l →
      List.Pairwise (fun a b => leadScore b ≤ leadScore a) (insertByScoreDesc x l) := by
  intro l
  induction l with
  | nil => intro _; simp [insertByScoreDesc]
  | cons y t ih =>
    intro hp
    rcases List.pairwise_cons.mp hp with ⟨hy, ht⟩
    unfold insertByScoreDesc
    by_cases hxy : leadScore y ≤ leadScore x
    · rw [if_pos hxy]
      refine List.pairwise_cons.mpr ⟨?_, hp⟩
      intro z hz
      rcases List.mem_cons.mp hz with hz | hz
      · rw [hz]; exact hxy
      · exact Nat.le_trans (hy z hz) hxy
    · rw [if_neg hxy]
      refine List.pairwise_cons.mpr ⟨?_, ih ht⟩
      intro z hz
      rcases mem_insertByScoreDesc hz with hz | hz
      · rw [hz]; omega
      · exact hy z hz

theorem pairwise_sortByScoreDesc :
    ∀ l : List LeadDict, List.Pairwise (fun a b => leadScore b ≤ leadScore a) (sortByScoreDesc l) := by
  intro l
  induction l with
  | nil => simp [sortByScoreDesc]
  | cons x t ih =>
    unfold sortByScoreDesc
    exact pairwise_insertByScoreDesc ih

theorem filter_insertByScoreDesc (x : LeadDict) (n : Nat) :
    ∀ l : List LeadDict,
      (insertByScoreDesc x l).filter (fun y => leadScore y == n) =
        (x :: l).filter (fun y => leadScore y == n) := by
  intro l
  induction l with
  | nil => rfl
  | cons y t ih =>
    unfold insertByScoreDesc
    by_cases hxy : leadScore y ≤ leadScore x
    · rw [if_pos hxy]
    · rw [if_neg hxy]
      by_cases hx : (leadScore x == n) = true
      · have hy : (leadScore y == n) = false := by
          have hx2 : leadScore x = n := by simpa using hx
          rw [beq_eq_false_iff_ne]
          omega
        simp only [List.filter_cons, hy, hx, ih]
        simp [List.filter_cons, hx, hy]
      · simp only [List.filter_cons, hx, ih]
        simp [List.filter_cons, hx]

theorem filter_sortByScoreDesc (n : Nat) :
    ∀ l : List LeadDict,
      (sortByScoreDesc l).filter (fun y => leadScore y == n) =
        l.filter (fun y => leadScore y == n) := by
  intro l
  induction l with
  | nil => rfl
  | cons x t ih =>
    unfold sortByScoreDesc
    rw [filter_insertByScoreDesc, List.filter_cons, List.filter_cons, ih]

/-- Claim C1 (code-bug evaluation): the `retry(max_attempts=3)` wrapper never
retries.  Its `except` block evaluates `func._name_` inside the log f-string
(src/scraper.py line 50); a plain function object has `__name__` but not
`_name_`, so that lookup raises `AttributeError`, which propagates out of
the wrapper right after the 1st failed invocation.  Both for an operation
failing every time and for one that would succeed on the 2nd call, the
wrapper makes exactly 1 invocation and raises `AttributeError` instead of
retrying or propagating the operation's own failure. -/
theorem retry_attribute_error_after_first_failure :
    retry 3 2 alwaysFailOp = (Except.error PyExn.attributeError, 1)
    ∧ retry 3 2 succeedsSecondOp = (Except.error PyExn.attributeError, 1) :=
  ⟨rfl, rfl⟩

/-- Claim C2: whatever the enrichment guard, the window-open outcome and the
in-page extraction outcome (normal return or raise), an invocation of
`_extract_detailed_info_from_profile` leaves the set of open window handles
and the focused handle exactly as before, provided the pre-invocation focus
is the passed search-results handle, that handle is open, and the transient
handle is fresh and non-empty. -/
theorem extract_detailed_info_restores_windows (info : SellerInfo)
    (searchHandle newHandle : String) (openOk : Bool)
    (body : SellerInfo → Except PyExn SellerInfo) (s : WinState)
    (hfoc : s.focused = searchHandle) (hmem : searchHandle ∈ s.handles)
    (hfresh : newHandle ∉ s.handles) (hne : newHandle ≠ "") :
    (extractDetailedInfoFromProfile info searchHandle newHandle openOk body s).2 = s := by
  subst hfoc
  have herase : (s.handles ++ [newHandle]).erase newHandle = s.handles := by
    rw [List.erase_append_right _ hfresh, List.erase_cons_head, List.append_nil]
  unfold extractDetailedInfoFromProfile
  by_cases he : enrichNeeded info
  · rw [if_pos he]
    cases openOk with
    | true => simp [hne, herase, hmem]
    | false => simp [hmem]
  · rw [if_neg he]

theorem extract_detailed_info_restores_windows_witness :
    (extractDetailedInfoFromProfile emptySellerInfo ("w1") ("w2") true
      (fun i => Except.ok i) (WinState.mk [("w1")] ("w1"))).2 =
      WinState.mk [("w1")] ("w1") :=
  extract_detailed_info_restores_windows emptySellerInfo ("w1") ("w2") true
    (fun i => Except.ok i) (WinState.mk [("w1")] ("w1")) rfl (by decide) (by decide) (by decide)

/-- Claim C3 counterexample: for the record whose description is exactly
"cricket ball" and keyword "Cricket Ball" (one case-insensitive occurrence,
`k = 1`), the description term contributes 62 = 60 + min(10, 2·1) points,
not 60 + min(10, 2·(k−1)) = 60 as the claim states; the whole score is 62. -/
theorem descTerm_occurrence_counterexample :
    pyCount (pyLower (("Cricket Ball")).toList) (pyLower oneHitLead.productTitle) = 1
    ∧ descTerm ratioZero oneHitLead (("Cricket Ball")).toList = 62
    ∧ calculateRelevancyScore ratioZero oneHitLead (("Cricket Ball")).toList = 62
    ∧ (62 : Nat) ≠ 60 + min 10 (2 * (1 - 1)) := by decide

/-- Claim C3 (amended): when the keyword occurs `k ≥ 1` times
(case-insensitively) in the non-empty description, the description term
contributes exactly 60 + min(10, 2·k) points; and the score of the
"Acme Sports" record with keyword "Cricket Ball" equals
67 + floor(partialRatio("cricket ball", "acme sports") · 0.3): the
description contributes 62, the company name goes through the fuzzy branch
(the keyword is not a substring of "Acme Sports"), and phone and email add
3 + 2. -/
theorem descTerm_occurrence_and_acme_score (ratio : PyStr → PyStr → Nat)
    (hr : ∀ a b : PyStr, ratio a b ≤ 100) (info : SellerInfo) (keyword : PyStr) (k : Nat)
    (hne : info.productTitle ≠ [])
    (hk : pyCount (pyLower keyword) (pyLower info.productTitle) = k) (hpos : 1 ≤ k) :
    descTerm ratio info keyword = 60 + min 10 (2 * k)
    ∧ calculateRelevancyScore ratio acmeLead (("Cricket Ball")).toList =
        67 + ratio (("cricket ball")).toList (("acme sports")).toList * 3 / 10 := by
  constructor
  · have hlne : pyLower info.productTitle ≠ [] := by
      simpa [pyLower] using hne
    have hin : pyIn (pyLower keyword) (pyLower info.productTitle) = true :=
      pyIn_of_pyCount_pos (by omega)
    simp only [descTerm]
    rw [if_pos hlne, if_pos hin, hk, Nat.mul_comm]
  · have hd : pyIn (pyLower (("Cricket Ball")).toList) (pyLower acmeLead.productTitle) = true := by
      decide
    have hc : pyCount (pyLower (("Cricket Ball")).toList) (pyLower acmeLead.productTitle) = 1 := by
      decide
    have hn : pyIn (pyLower (("Cricket Ball")).toList) (pyLower acmeLead.companyName) = false := by
      decide
    have hkw : pyLower (("Cricket Ball")).toList = (("cricket ball")).toList := by decide
    have hcn : pyLower acmeLead.companyName = (("acme sports")).toList := by decide
    have htne : pyLower acmeLead.productTitle ≠ [] := by decide
    have hnne : pyLower acmeLead.companyName ≠ [] := by decide
    have hb : ratio (("cricket ball")).toList (("acme sports")).toList * 3 / 10 ≤ 30 := by
      have := hr (("cricket ball")).toList (("acme sports")).toList
      omega
    simp only [calculateRelevancyScore, descTerm, nameTerm, bonusTerm]
    rw [if_pos htne, if_pos hd, hc, if_pos hnne]
    rw [if_neg (by rw [hn]; exact Bool.false_ne_true)]
    rw [hkw, hcn]
    have hph : acmeLead.phoneNumber ≠ [] := by decide
    have hem : acmeLead.email ≠ [] := by decide
    have had : ¬(acmeLead.address ≠ []) := by decide
    have hca : ¬(acmeLead.productCatalogURL ≠ []) := by decide
    rw [if_pos hph, if_pos hem, if_neg had, if_neg hca]
    rw [Nat.min_eq_right (by omega)]
    omega

theorem descTerm_occurrence_witness :
    descTerm ratioZero oneHitLead (("Cricket Ball")).toList = 60 + min 10 (2 * 1) :=
  (descTerm_occurrence_and_acme_score ratioZero (fun a b => by simp [ratioZero]) oneHitLead
    (("Cricket Ball")).toList 1 (by decide) (by decide) (by decide)).1

/-- Claim C4: phone normalization returns the digit string when it has
exactly 10 digits; the trailing 10 digits when it has 11 or 12 digits and
starts with "91" or "0"; and the original non-empty input otherwise. -/
theorem validate_phone_spec (phone : PyStr) :
    ((phone.filter Char.isDigit).length = 10 →
      validate_phone phone = phone.filter Char.isDigit)
    ∧ (((phone.filter Char.isDigit).length = 11 ∨ (phone.filter Char.isDigit).length = 12) →
        (pyStartsWith [ '9', '1'] (phone.filter Char.isDigit) = true ∨
          pyStartsWith [ '0'] (phone.filter Char.isDigit) = true) →
        validate_phone phone =
          (phone.filter Char.isDigit).drop ((phone.filter Char.isDigit).length - 10))
    ∧ (phone ≠ [] →
        ¬((phone.filter Char.isDigit).length = 10) →
        ¬(((phone.filter Char.isDigit).length = 11 ∨ (phone.filter Char.isDigit).length = 12) ∧
          (pyStartsWith [ '9', '1'] (phone.filter Char.isDigit) = true ∨
            pyStartsWith [ '0'] (phone.filter Char.isDigit) = true)) →
        validate_phone phone = phone) := by
  refine ⟨?_, ?_, ?_⟩
  · intro h10
    have hpne : phone ≠ [] := by
      intro hp; rw [hp] at h10; simp at h10
    simp only [validate_phone]
    rw [if_neg hpne, if_pos h10]
  · intro h1112 hstart
    have hpne : phone ≠ [] := by
      intro hp; rw [hp] at h1112; simp at h1112
    have h10 : ¬((phone.filter Char.isDigit).length = 10) := by omega
    simp only [validate_phone]
    rw [if_neg hpne, if_neg h10,
      if_pos ⟨h1112, by rcases hstart with h | h <;> simp [h]⟩]
  · intro hpne h10 hother
    simp only [validate_phone]
    rw [if_neg hpne, if_neg h10,
      if_neg (fun hcontra => hother ⟨hcontra.1, by simpa using hcontra.2⟩)]

theorem validate_phone_witness :
    validate_phone (("98-7654-3210")).toList = (("9876543210")).toList
    ∧ validate_phone (("+91 98765 43210")).toList = (("9876543210")).toList
    ∧ validate_phone (("hello")).toList = (("hello")).toList := by
  refine ⟨?_, ?_, ?_⟩
  · exact ((validate_phone_spec _).1 (by decide)).trans (by decide)
  · exact ((validate_phone_spec _).2.1 (by decide) (Or.inl (by decide))).trans (by decide)
  · exact (validate_phone_spec _).2.2 (by decide) (by decide) (by decide)

/-- Claim C5 counterexample: on "a@b@c.com" the input contains "@" and the
substring after the first "@" (namely "b@c.com") contains "."; the claim
therefore requires the trimmed lowercased input (non-empty), but
`validate_email` tests `split('@')[1]` = "b", which has no ".", and returns
the empty string. -/
theorem validate_email_multi_at_counterexample :
    ('@' ∈ (("a@b@c.com")).toList)
    ∧ ('.' ∈ afterFirst '@' (("a@b@c.com")).toList)
    ∧ validate_email (("a@b@c.com")).toList = []
    ∧ pyLower (pyStrip (("a@b@c.com")).toList) ≠ [] := by decide

/-- Claim C5 (amended): email normalization returns the empty string when
the input lacks "@" or the segment between the first "@" and the next "@"
(Python `split('@')[1]`) lacks "."; otherwise it returns the input trimmed
and lowercased. -/
theorem validate_email_spec (email : PyStr) :
    ((email.contains '@' = false ∨ (splitSeg '@' email).contains '.' = false) →
      validate_email email = [])
    ∧ (email.contains '@' = true → (splitSeg '@' email).contains '.' = true →
        validate_email email = pyLower (pyStrip email)) := by
  constructor
  · intro h
    by_cases hemp : email = []
    · rw [hemp]; rfl
    · simp only [validate_email]
      rw [if_neg hemp, if_neg ?_]
      intro hcontra
      rw [Bool.and_eq_true] at hcontra
      rcases h with h | h
      · rw [h] at hcontra; exact Bool.false_ne_true hcontra.1
      · rw [h] at hcontra; exact Bool.false_ne_true hcontra.2
  · intro h1 h2
    have hemp : email ≠ [] := by
      intro he; rw [he] at h1; simp at h1
    simp only [validate_email]
    rw [if_neg hemp, if_pos (by rw [Bool.and_eq_true]; exact ⟨h1, h2⟩)]

theorem validate_email_witness :
    validate_email ((" A@B.com ")).toList = (("a@b.com")).toList
    ∧ validate_email (("nodot@nob")).toList = [] := by
  constructor
  · exact ((validate_email_spec _).2 (by decide) (by decide)).trans (by decide)
  · exact (validate_email_spec _).1 (Or.inr (by decide))

/-- Claim C6 counterexample: on the record with empty description and the
empty keyword, the keyword is (vacuously) a literal substring of the
description — Python's `"" in ""` is `True` — yet the description term
contributes 0 because the scorer skips an empty description. -/
theorem descTerm_substring_counterexample :
    pyIn (pyLower []) (pyLower emptySellerInfo.productTitle) = true
    ∧ descTerm ratioZero emptySellerInfo [] = 0
    ∧ ¬(60 ≤ descTerm ratioZero emptySellerInfo []) := by decide

/-- Claim C6 (amended): when the product description is non-empty and the
keyword is a case-insensitive literal substring of it, the description term
contributes at least 60 points, whatever the fuzzy primitive returns. -/
theorem descTerm_substring_lower_bound (ratio : PyStr → PyStr → Nat) (info : SellerInfo)
    (keyword : PyStr) (hne : info.productTitle ≠ [])
    (hsub : pyIn (pyLower keyword) (pyLower info.productTitle) = true) :
    60 ≤ descTerm ratio info keyword := by
  have hlne : pyLower info.productTitle ≠ [] := by
    simpa [pyLower] using hne
  simp only [descTerm]
  rw [if_pos hlne, if_pos hsub]
  omega

theorem descTerm_substring_lower_bound_witness :
    60 ≤ descTerm ratioZero acmeLead (("Cricket Ball")).toList :=
  descTerm_substring_lower_bound ratioZero acmeLead (("Cricket Ball")).toList
    (by decide) (by decide)

/-- Claim C7: the relevancy score is always at most 100 (it is a natural
number, hence at least 0), and a record with empty description, name, phone,
email, address and catalog reference scores exactly 0. -/
theorem relevancy_score_bounds (ratio : PyStr → PyStr → Nat) (info : SellerInfo)
    (keyword : PyStr) :
    calculateRelevancyScore ratio info keyword ≤ 100
    ∧ (info.productTitle = [] → info.companyName = [] → info.phoneNumber = [] →
        info.email = [] → info.address = [] → info.productCatalogURL = [] →
        calculateRelevancyScore ratio info keyword = 0) := by
  constructor
  · exact Nat.min_le_left 100 _
  · intro h1 h2 h3 h4 h5 h6
    simp [calculateRelevancyScore, descTerm, nameTerm, bonusTerm, h1, h2, h3, h4, h5, h6, pyLower]

theorem relevancy_score_bounds_witness :
    calculateRelevancyScore ratioZero emptySellerInfo (("Cricket Ball")).toList = 0 :=
  (relevancy_score_bounds ratioZero emptySellerInfo (("Cricket Ball")).toList).2
    rfl rfl rfl rfl rfl rfl

/-- Claim C8: for a non-empty lead store (with integer scores, as the
scraper always sets), the exported rows are the leads sorted by relevancy
score descending — a permutation of the input, pairwise non-increasing, and
stable (every equal-score fibre keeps its accumulation order) — each row
having exactly the 9 fixed columns in order, with a key missing from a lead
rendered as the empty string at its column position rather than omitted. -/
theorem export_to_csv_spec (leads : List LeadDict) (hne : leads ≠ [])
    (hsc : ∀ l ∈ leads, scoreIsInt l = true) :
    export_to_csv leads = some ((sortByScoreDesc leads).map leadRow)
    ∧ List.Perm (sortByScoreDesc leads) leads
    ∧ List.Pairwise (fun a b => leadScore b ≤ leadScore a) (sortByScoreDesc leads)
    ∧ (∀ n : Nat, (sortByScoreDesc leads).filter (fun y => leadScore y == n) =
        leads.filter (fun y => leadScore y == n))
    ∧ (∀ l : LeadDict, (leadRow l).length = 9)
    ∧ (∀ (l : LeadDict) (i : Nat) (f : String), csvFields[i]? = some f →
        dictGet l f = none → (leadRow l)[i]? = some ("")) := by
  refine ⟨?_, sortByScoreDesc_perm leads, pairwise_sortByScoreDesc leads,
    fun n => filter_sortByScoreDesc n leads, ?_, ?_⟩
  · simp [export_to_csv, hne]
  · intro l; simp [leadRow, csvFields]
  · intro l i f hf hd
    simp only [leadRow, List.getElem?_map, hf, Option.map_some', hd]
    rfl

theorem export_to_csv_spec_witness :
    export_to_csv demoLeads = some [leadRow demoLeadHigh, leadRow demoLeadLow] := by
  have h := (export_to_csv_spec demoLeads (by decide) (by decide)).1
  rw [h]
  decide

/-- Claim C9: every record the scraping loop appends to the lead store has a
non-empty company name or a non-empty product title after sanitization.  The
two guard fields are produced by `element.text.strip()` (on the listing card
or backfilled from the profile page), so they are strip-fixed, and
sanitization cannot empty a non-empty strip-fixed string; the retention
guard (src/scraper.py line 752) checks them before appending the sanitized
record. -/
theorem scrape_retention_invariant
    (rawTitleCard rawCompanyCard rawTitleProfile rawCompanyProfile : Option PyStr)
    (profileURL catalogURL price address phone email : PyStr) (score : Nat) (r : SellerInfo)
    (h : retainStep (mkScrapedInfo rawTitleCard rawCompanyCard rawTitleProfile rawCompanyProfile
        profileURL catalogURL price address phone email score) = some r) :
    r.companyName ≠ [] ∨ r.productTitle ≠ [] := by
  unfold retainStep at h
  split at h
  case isTrue hcond =>
    have hr : r = sanitizeSellerInfo (mkScrapedInfo rawTitleCard rawCompanyCard rawTitleProfile
        rawCompanyProfile profileURL catalogURL price address phone email score) := by
      injection h with h2
      exact h2.symm
    have hstripC : pyStrip (mkScrapedInfo rawTitleCard rawCompanyCard rawTitleProfile
        rawCompanyProfile profileURL catalogURL price address phone email score).companyName =
        (mkScrapedInfo rawTitleCard rawCompanyCard rawTitleProfile rawCompanyProfile
          profileURL catalogURL price address phone email score).companyName :=
      pyStrip_fillIfEmpty (pyStrip_textStripOpt _) (pyStrip_textStripOpt _)
    have hstripT : pyStrip (mkScrapedInfo rawTitleCard rawCompanyCard rawTitleProfile
        rawCompanyProfile profileURL catalogURL price address phone email score).productTitle =
        (mkScrapedInfo rawTitleCard rawCompanyCard rawTitleProfile rawCompanyProfile
          profileURL catalogURL price address phone email score).productTitle :=
      pyStrip_fillIfEmpty (pyStrip_textStripOpt _) (pyStrip_textStripOpt _)
    rcases hcond with hcne | htne
    · left
      rw [hr]
      exact cleanText_ne_nil hstripC hcne
    · right
      rw [hr]
      exact cleanText_ne_nil hstripT htne
  case isFalse hcond =>
    exact absurd h (by simp)

theorem scrape_retention_invariant_witness :
    (sanitizeSellerInfo (mkScrapedInfo none (some ((" Acme  Sports ")).toList) none none
        [] [] [] [] [] [] 0)).companyName ≠ []
    ∨ (sanitizeSellerInfo (mkScrapedInfo none (some ((" Acme  Sports ")).toList) none none
        [] [] [] [] [] [] 0)).productTitle ≠ [] :=
  scrape_retention_invariant none (some ((" Acme  Sports ")).toList) none none
    [] [] [] [] [] [] 0 _ (by decide)

/-- Claim C10: `sanitize_data` is idempotent on lead dictionaries: each
string value comes out trimmed, free of newlines, tabs and double spaces,
so a second application changes nothing. -/
theorem sanitize_data_idempotent (d : LeadDict) :
    sanitize_data (sanitize_data d) = sanitize_data d := by
  induction d with
  | nil => rfl
  | cons kv t ih =>
    obtain ⟨k, v⟩ := kv
    cases v with
    | str s =>
      simp only [sanitize_data, List.map_cons] at ih ⊢
      rw [cleanText_idem]
      exact congrArg _ ih
    | int n =>
      simp only [sanitize_data, List.map_cons] at ih ⊢
      exact congrArg _ ih
